import Mathlib

/-!
Shallow embedding of `model.py` from SRNet-Pytorch.

A tensor is a rank-4 array (batch, channel, height, width): we keep the four
extents and a total data function on indices.  Real-valued parameters of the
network (convolution weights and biases, normalization scales and shifts) are
abstract functions, since every claim quantifies over the learned parameters.
Fallible operations (convolution on an undersized input, concatenation or
addition of mismatched tensors, a channel count that does not match a layer)
return `Option`, mirroring the shape errors PyTorch raises.

Batch normalization in evaluation mode is the per-channel affine map
x ↦ scale c * x + shift c with scale = gamma / sqrt(var + eps) and
shift = beta - mean * gamma / sqrt(var + eps); it is modelled with abstract
per-channel scale and shift parameters.
-/

noncomputable section

/-- A rank-4 tensor: batch size `n`, channels `c`, height `h`, width `w`,
and a total data function (reads outside the extent are never produced by
the layers below, which only write indices inside the extent). -/
structure Tensor where
  n : ℕ
  c : ℕ
  h : ℕ
  w : ℕ
  data : ℕ → ℕ → ℕ → ℕ → ℝ

/-- The four extents of a tensor, as a tuple (batch, channels, height, width). -/
def shapeOf (t : Tensor) : ℕ × ℕ × ℕ × ℕ := (t.n, t.c, t.h, t.w)

/-- Zero-padded read of a tensor at (possibly negative) spatial indices. -/
def padGet (x : Tensor) (b c : ℕ) (i j : ℤ) : ℝ :=
  if 0 ≤ i ∧ i < (x.h : ℤ) ∧ 0 ≤ j ∧ j < (x.w : ℤ) then
    x.data b c i.toNat j.toNat
  else 0

/-- Read of the stride-`s` zero-stuffed upsampling of a tensor, used to express
transposed convolution as a convolution over the zero-stuffed input. -/
def strideGet (x : Tensor) (s : ℕ) (b c : ℕ) (i j : ℤ) : ℝ :=
  if (s : ℤ) ∣ i ∧ (s : ℤ) ∣ j ∧ 0 ≤ i ∧ i < (s : ℤ) * x.h ∧ 0 ≤ j ∧ j < (s : ℤ) * x.w then
    x.data b c (i / s).toNat (j / s).toNat
  else 0

/-- Learned parameters of a convolution: a weight function over
(out-channel, in-channel, kernel-row, kernel-column) and a bias per channel.
For a transposed convolution the first two weight indices are
(in-channel, out-channel), following the PyTorch layout. -/
structure ConvParams where
  weight : ℕ → ℕ → ℕ → ℕ → ℝ
  bias : ℕ → ℝ

/-- Spatial extent produced by `nn.Conv2d`:
floor((size + 2 padding - dilation (k - 1) - 1) / stride) + 1. -/
def convOut (size k s p d : ℕ) : ℕ := (size + 2 * p - (d * (k - 1) + 1)) / s + 1

/-- Spatial extent produced by `nn.ConvTranspose2d` (dilation 1):
(size - 1) stride - 2 padding + kernel + output padding. -/
def deconvOut (size k s p op : ℕ) : ℕ := (size - 1) * s + (k + op) - 2 * p

/-- `nn.Conv2d(inC, outC, kernel_size=k, stride=s, padding=p, dilation=d)`.
Fails when the input channel count differs from `inC` or the padded input is
smaller than the (dilated) kernel, as PyTorch does. -/
def conv2d (inC outC k s p d : ℕ) (cp : ConvParams) (x : Tensor) : Option Tensor :=
  if x.c = inC ∧ d * (k - 1) + 1 ≤ x.h + 2 * p ∧ d * (k - 1) + 1 ≤ x.w + 2 * p then
    some ⟨x.n, outC, convOut x.h k s p d, convOut x.w k s p d,
      fun b oc i j =>
        cp.bias oc + ∑ ic ∈ Finset.range inC, ∑ ki ∈ Finset.range k, ∑ kj ∈ Finset.range k,
          cp.weight oc ic ki kj *
            padGet x b ic ((s * i + d * ki : ℤ) - p) ((s * j + d * kj : ℤ) - p)⟩
  else none

/-- `nn.ConvTranspose2d(inC, outC, kernel_size=k, stride=s, padding=p,
output_padding=op)`, expressed as a convolution over the stride-`s`
zero-stuffed input.  Fails on empty input or a non-positive output extent. -/
def convTranspose2d (inC outC k s p op : ℕ) (cp : ConvParams) (x : Tensor) : Option Tensor :=
  if x.c = inC ∧ 1 ≤ x.h ∧ 1 ≤ x.w ∧
      2 * p + 1 ≤ (x.h - 1) * s + (k + op) ∧ 2 * p + 1 ≤ (x.w - 1) * s + (k + op) then
    some ⟨x.n, outC, deconvOut x.h k s p op, deconvOut x.w k s p op,
      fun b oc i j =>
        cp.bias oc + ∑ ic ∈ Finset.range inC, ∑ ki ∈ Finset.range k, ∑ kj ∈ Finset.range k,
          cp.weight ic oc ki kj *
            strideGet x s b ic ((i : ℤ) + p - ki) ((j : ℤ) + p - kj)⟩
  else none

/-- Per-channel affine parameters of `nn.BatchNorm2d` in evaluation mode. -/
structure BNParams where
  scale : ℕ → ℝ
  shift : ℕ → ℝ

/-- `nn.BatchNorm2d(numFeatures)`: per-channel affine map; fails when the
channel count does not match `numFeatures`. -/
def batchNorm2d (numFeatures : ℕ) (bp : BNParams) (x : Tensor) : Option Tensor :=
  if x.c = numFeatures then
    some ⟨x.n, x.c, x.h, x.w, fun b c i j => bp.scale c * x.data b c i j + bp.shift c⟩
  else none

/-- Elementwise application of a scalar function. -/
def mapData (f : ℝ → ℝ) (x : Tensor) : Tensor :=
  ⟨x.n, x.c, x.h, x.w, fun b c i j => f (x.data b c i j)⟩

/-- Leaky rectified linear unit with the PyTorch default negative slope 0.01. -/
def leakyRelu (x : ℝ) : ℝ := if x < 0 then x * (1 / 100) else x

/-- The logistic sigmoid 1 / (1 + exp(-x)). -/
def sigmoid (x : ℝ) : ℝ := 1 / (1 + Real.exp (-x))

/-- `nn.LeakyReLU()` / `F.leaky_relu`. -/
def leakyReluLayer (x : Tensor) : Tensor := mapData leakyRelu x

/-- `nn.Sigmoid()`. -/
def sigmoidLayer (x : Tensor) : Tensor := mapData sigmoid x

/-- `nn.Tanh()`. -/
def tanhLayer (x : Tensor) : Tensor := mapData Real.tanh x

/-- `torch.cat([a, b], dim=1)`: channel-wise concatenation; fails when batch
or spatial extents disagree. -/
def catC (a b : Tensor) : Option Tensor :=
  if a.n = b.n ∧ a.h = b.h ∧ a.w = b.w then
    some ⟨a.n, a.c + b.c, a.h, a.w, fun bb ch i j =>
      if ch < a.c then a.data bb ch i j else b.data bb (ch - a.c) i j⟩
  else none

/-- Elementwise tensor addition (`+` on equal-shaped tensors). -/
def addT (a b : Tensor) : Option Tensor :=
  if a.n = b.n ∧ a.c = b.c ∧ a.h = b.h ∧ a.w = b.w then
    some ⟨a.n, a.c, a.h, a.w, fun bb ch i j => a.data bb ch i j + b.data bb ch i j⟩
  else none

/-- Parameters of one `conv_bn_relu` block. -/
structure CBRParams where
  conv : ConvParams
  bn : BNParams

/-- `conv_bn_relu(in_channels, out_channels)`:
Conv2d(k=3, s=1, p=1) then BatchNorm2d then LeakyReLU. -/
def conv_bn_relu (inC outC : ℕ) (p : CBRParams) (x : Tensor) : Option Tensor :=
  (conv2d inC outC 3 1 1 1 p.conv x).bind fun y =>
    (batchNorm2d outC p.bn y).map leakyReluLayer

/-- `dilated_conv(in_dim, padding, dilation)`:
Conv2d(k=3, s=1) with the given padding and dilation, then BatchNorm2d,
then LeakyReLU.  (Declared in the source but only used in commented-out
code of `BackgroundInpaintingNet`.) -/
def dilated_conv (inDim padding dilation : ℕ) (p : CBRParams) (x : Tensor) : Option Tensor :=
  (conv2d inDim inDim 3 1 padding dilation p.conv x).bind fun y =>
    (batchNorm2d inDim p.bn y).map leakyReluLayer

/-- Parameters of one `Residual` unit: the three convolutions of its
`self.conv` sequential and the batch norm applied after the shortcut. -/
structure ResidualParams where
  conv1 : ConvParams
  conv2 : ConvParams
  conv3 : ConvParams
  bn : BNParams

/-- `Residual.self.conv`: Conv2d(in_dim, in_dim/4, k=1), LeakyReLU,
Conv2d(in_dim/4, in_dim/4, k=3, p=1), LeakyReLU, Conv2d(in_dim/4, in_dim, k=1). -/
def residualConv (inDim : ℕ) (p : ResidualParams) (x : Tensor) : Option Tensor := do
  let a ← conv2d inDim (inDim / 4) 1 1 0 1 p.conv1 x
  let b ← conv2d (inDim / 4) (inDim / 4) 3 1 1 1 p.conv2 (leakyReluLayer a)
  conv2d (inDim / 4) inDim 1 1 0 1 p.conv3 (leakyReluLayer b)

/-- `Residual.forward`: out = self.conv(x) + x; return F.leaky_relu(self.bn(out)). -/
def residualForward (inDim : ℕ) (p : ResidualParams) (x : Tensor) : Option Tensor := do
  let out ← (residualConv inDim p x).bind fun y => addT y x
  (batchNorm2d inDim p.bn out).map leakyReluLayer

/-- Parameters of `ResNet`: four `Residual` units. -/
structure ResNetParams where
  r1 : ResidualParams
  r2 : ResidualParams
  r3 : ResidualParams
  r4 : ResidualParams

/-- `ResNet.forward`: four `Residual` units in sequence, all at `in_dim`. -/
def resNetForward (inDim : ℕ) (p : ResNetParams) (x : Tensor) : Option Tensor :=
  (((residualForward inDim p.r1 x).bind
    (residualForward inDim p.r2)).bind
    (residualForward inDim p.r3)).bind
    (residualForward inDim p.r4)

/-- Parameters of `EncoderNet`: layer 1 is two conv_bn_relu blocks; layers
2 to 4 are a stride-2 convolution (followed by a LeakyReLU) and two
conv_bn_relu blocks. -/
structure EncoderParams where
  l1a : CBRParams
  l1b : CBRParams
  l2c : ConvParams
  l2a : CBRParams
  l2b : CBRParams
  l3c : ConvParams
  l3a : CBRParams
  l3b : CBRParams
  l4c : ConvParams
  l4a : CBRParams
  l4b : CBRParams

/-- `EncoderNet.self.l1`: conv_bn_relu(in_dim, 32), conv_bn_relu(32, 32). -/
def encoderL1 (inDim : ℕ) (p : EncoderParams) (x : Tensor) : Option Tensor :=
  (conv_bn_relu inDim 32 p.l1a x).bind (conv_bn_relu 32 32 p.l1b)

/-- `EncoderNet.self.l2`: Conv2d(32, 64, k=3, s=2, p=1), LeakyReLU,
conv_bn_relu(64, 64), conv_bn_relu(64, 64). -/
def encoderL2 (p : EncoderParams) (x : Tensor) : Option Tensor :=
  (((conv2d 32 64 3 2 1 1 p.l2c x).map leakyReluLayer).bind
    (conv_bn_relu 64 64 p.l2a)).bind (conv_bn_relu 64 64 p.l2b)

/-- `EncoderNet.self.l3`: Conv2d(64, 128, k=3, s=2, p=1), LeakyReLU,
conv_bn_relu(128, 128), conv_bn_relu(128, 128). -/
def encoderL3 (p : EncoderParams) (x : Tensor) : Option Tensor :=
  (((conv2d 64 128 3 2 1 1 p.l3c x).map leakyReluLayer).bind
    (conv_bn_relu 128 128 p.l3a)).bind (conv_bn_relu 128 128 p.l3b)

/-- `EncoderNet.self.l4`: Conv2d(128, 256, k=3, s=2, p=1), LeakyReLU,
conv_bn_relu(256, 256), conv_bn_relu(256, 256). -/
def encoderL4 (p : EncoderParams) (x : Tensor) : Option Tensor :=
  (((conv2d 128 256 3 2 1 1 p.l4c x).map leakyReluLayer).bind
    (conv_bn_relu 256 256 p.l4a)).bind (conv_bn_relu 256 256 p.l4b)

/-- `EncoderNet.forward` with `get_feature_map=True`: returns the final map
and the intermediate feature maps `[f2, f1]`, where `f1` is the output of
`l2` and `f2` the output of `l3`. -/
def encoderForwardFM (inDim : ℕ) (p : EncoderParams) (x : Tensor) :
    Option (Tensor × List Tensor) := do
  let o1 ← encoderL1 inDim p x
  let f1 ← encoderL2 p o1
  let f2 ← encoderL3 p f1
  let out ← encoderL4 p f2
  return (out, [f2, f1])

/-- `EncoderNet.forward` with `get_feature_map=False` (the default): the same
computation, returning only the final map. -/
def encoderForward (inDim : ℕ) (p : EncoderParams) (x : Tensor) : Option Tensor :=
  (encoderForwardFM inDim p x).map Prod.fst

/-- Parameters of `DecoderNet`: three stages of two conv_bn_relu blocks and a
transposed convolution (followed by LeakyReLU), then two final
conv_bn_relu blocks. -/
structure DecoderParams where
  c1a : CBRParams
  c1b : CBRParams
  d1 : ConvParams
  c2a : CBRParams
  c2b : CBRParams
  d2 : ConvParams
  c3a : CBRParams
  c3b : CBRParams
  d3 : ConvParams
  c4a : CBRParams
  c4b : CBRParams

/-- One stage's skip handling in `DecoderNet.forward`: concatenate the
caller-supplied skip map when present (`if fuse and fuse[i] is not None`),
otherwise pass the tensor through. -/
def fuseCat (x : Tensor) (s : Option Tensor) : Option Tensor :=
  match s with
  | some t => catC x t
  | none => pure x

/-- The body of `DecoderNet.forward` once the per-stage skip features have
been resolved (`s0`, `s1`, `s2` are the values of `fuse[0]`, `fuse[1]`,
`fuse[2]`, or `none` for the sentinel / an absent list).  `f1c`, `f2c`, `f3c`
are the constructor's `feature_map_channels` (0, 0, 0 when it is `None`).
Returns the output together with the intermediate maps `[f1, f2, f3]`. -/
def decoderCore (inDim f1c f2c f3c : ℕ) (p : DecoderParams) (x : Tensor)
    (s0 s1 s2 : Option Tensor) : Option (Tensor × List Tensor) := do
  let x1 ← fuseCat x s0
  let o1 ← (conv_bn_relu (inDim + f1c) 256 p.c1a x1).bind (conv_bn_relu 256 256 p.c1b)
  let u1 ← (convTranspose2d 256 128 3 2 1 1 p.d1 o1).map leakyReluLayer
  let x2 ← fuseCat u1 s1
  let o2 ← (conv_bn_relu (128 + f2c) 128 p.c2a x2).bind (conv_bn_relu 128 128 p.c2b)
  let u2 ← (convTranspose2d 128 64 3 2 1 1 p.d2 o2).map leakyReluLayer
  let x3 ← fuseCat u2 s2
  let o3 ← (conv_bn_relu (64 + f3c) 64 p.c3a x3).bind (conv_bn_relu 64 64 p.c3b)
  let u3 ← (convTranspose2d 64 32 3 2 1 1 p.d3 o3).map leakyReluLayer
  let out ← (conv_bn_relu 32 32 p.c4a u3).bind (conv_bn_relu 32 32 p.c4b)
  return (out, [o1, o2, o3])

/-- `DecoderNet.forward(x, fuse)` with `get_feature_map=True`.  The `fuse`
argument mirrors the Python one: `none` for the default `None`, or a list
whose entries are per-stage skip maps (`none` for the `None` sentinel).
Python's truthiness test `if fuse and fuse[i] is not None` skips every
concatenation when `fuse` is `None` or the empty list; a non-empty list
shorter than three raises an IndexError, modelled by `none`. -/
def decoderForward (inDim f1c f2c f3c : ℕ) (p : DecoderParams) (x : Tensor)
    (fuse : Option (List (Option Tensor))) : Option (Tensor × List Tensor) :=
  match fuse with
  | none => decoderCore inDim f1c f2c f3c p x none none none
  | some [] => decoderCore inDim f1c f2c f3c p x none none none
  | some (e0 :: rest) =>
    match rest with
    | e1 :: e2 :: _ => decoderCore inDim f1c f2c f3c p x e0 e1 e2
    | _ => none

/-- `DecoderNet.forward(x, fuse)` with `get_feature_map=False` (the default):
the same computation, returning only the output. -/
def decoderOut (inDim f1c f2c f3c : ℕ) (p : DecoderParams) (x : Tensor)
    (fuse : Option (List (Option Tensor))) : Option Tensor :=
  (decoderForward inDim f1c f2c f3c p x fuse).map Prod.fst

/-- Parameters of `TextConversionNet`: the two encoder+resnet branches, the
skeleton decoder with its final 32→1 convolution (before the sigmoid), the
text decoder, the 33-channel conv_bn_relu and the final 33→3 convolution
(before the tanh). -/
structure TCNParams where
  tEnc : EncoderParams
  tRes : ResNetParams
  sEnc : EncoderParams
  sRes : ResNetParams
  skDec : DecoderParams
  skConv : ConvParams
  tDec : DecoderParams
  tConv : CBRParams
  lastConv : ConvParams

/-- `TextConversionNet.forward(x_t, x_s)`: twin encoder+ResNet(256) branches,
channel concatenation to 512, the skeleton branch
DecoderNet(512) → Conv2d(32, 1, k=3, p=1) → Sigmoid, the text branch
DecoderNet(512), concatenation of [out_sk, out_t] to 33 channels,
conv_bn_relu(33, 33), and Conv2d(33, 3, k=3, p=1) → Tanh.
Returns (out_sk, stylized text image). -/
def tcnForward (inDim : ℕ) (p : TCNParams) (xt xs : Tensor) :
    Option (Tensor × Tensor) := do
  let et ← encoderForward inDim p.tEnc xt
  let outT ← resNetForward 256 p.tRes et
  let es ← encoderForward inDim p.sEnc xs
  let outS ← resNetForward 256 p.sRes es
  let out ← catC outT outS
  let skPre ← decoderOut (2 * 256) 0 0 0 p.skDec out none
  let skC ← conv2d 32 1 3 1 1 1 p.skConv skPre
  let outSk := sigmoidLayer skC
  let outT2 ← decoderOut (2 * 256) 0 0 0 p.tDec out none
  let outT3 ← catC outSk outT2
  let outT4 ← conv_bn_relu (32 + 1) (32 + 1) p.tConv outT3
  let outT5 ← conv2d (32 + 1) 3 3 1 1 1 p.lastConv outT4
  return (outSk, tanhLayer outT5)

/-- Parameters of `BackgroundInpaintingNet`: encoder, ResNet(256), decoder
(constructed as DecoderNet(256, [0, 128, 64])) and the final 32→3
convolution (before the tanh). -/
structure BINParams where
  enc : EncoderParams
  res : ResNetParams
  dec : DecoderParams
  lastConv : ConvParams

/-- `BackgroundInpaintingNet.forward(x)`: encoder in feature-map mode,
ResNet(256), decoder with `[None] + f_encoder` as skips in feature-map mode,
then Conv2d(32, 3, k=3, p=1) → Tanh.  Returns (background, fuse). -/
def binForward (inDim : ℕ) (p : BINParams) (x : Tensor) :
    Option (Tensor × List Tensor) := do
  let (out, fEnc) ← encoderForwardFM inDim p.enc x
  let out2 ← resNetForward 256 p.res out
  let (out3, fuse) ← decoderForward 256 0 128 64 p.dec out2 (some (none :: fEnc.map some))
  let out4 ← conv2d 32 3 3 1 1 1 p.lastConv out3
  return (tanhLayer out4, fuse)

/-- Parameters of `FusionNet`: encoder, ResNet(256), decoder (constructed as
DecoderNet(256, [256, 128, 64])) and the final 32→3 convolution (before the
tanh). -/
structure FusionParams where
  enc : EncoderParams
  res : ResNetParams
  dec : DecoderParams
  lastConv : ConvParams

/-- `FusionNet.forward(x, fuse)`: encoder, ResNet(256), decoder with the given
skip features, then Conv2d(32, 3, k=3, p=1) → Tanh. -/
def fusionForward (inDim : ℕ) (p : FusionParams) (x : Tensor) (fuse : List Tensor) :
    Option Tensor := do
  let e ← encoderForward inDim p.enc x
  let r ← resNetForward 256 p.res e
  let d ← decoderOut 256 256 128 64 p.dec r (some (fuse.map some))
  let l ← conv2d 32 3 3 1 1 1 p.lastConv d
  return tanhLayer l

/-- Parameters of `Generator`: its three sub-networks. -/
structure GeneratorParams where
  tcn : TCNParams
  bin : BINParams
  fusion : FusionParams

/-- `Generator.forward((i_t, i_s))`: text conversion on (i_t, i_s), background
inpainting on i_s, fusion of the stylized text with the inpainting features.
Returns (o_sk, o_t, o_b, o_f). -/
def generatorForward (inDim : ℕ) (p : GeneratorParams) (inputs : Tensor × Tensor) :
    Option (Tensor × Tensor × Tensor × Tensor) := do
  let (it, is') := inputs
  let (oSk, oT) ← tcnForward inDim p.tcn it is'
  let (oB, fuse) ← binForward inDim p.bin is'
  let oF ← fusionForward inDim p.fusion oT fuse
  return (oSk, oT, oB, oF)

/-- Parameters of `Discriminator`: five convolutions, each with a batch norm
(the fifth stage's batch norm is `BatchNorm2d(1)`). -/
structure DiscParams where
  c1 : ConvParams
  b1 : BNParams
  c2 : ConvParams
  b2 : BNParams
  c3 : ConvParams
  b3 : BNParams
  c4 : ConvParams
  b4 : BNParams
  c5 : ConvParams
  b5 : BNParams

/-- `Discriminator.forward`: four stages Conv2d(k=3, s=2, p=1) → BatchNorm2d
→ LeakyReLU at channels 64, 128, 256, 512, then
Conv2d(512, 1, k=3, s=1, p=1) → BatchNorm2d(1) → Sigmoid. -/
def discForward (inDim : ℕ) (p : DiscParams) (x : Tensor) : Option Tensor := do
  let y1 ← (conv2d inDim 64 3 2 1 1 p.c1 x).bind fun y =>
    (batchNorm2d 64 p.b1 y).map leakyReluLayer
  let y2 ← (conv2d 64 128 3 2 1 1 p.c2 y1).bind fun y =>
    (batchNorm2d 128 p.b2 y).map leakyReluLayer
  let y3 ← (conv2d 128 256 3 2 1 1 p.c3 y2).bind fun y =>
    (batchNorm2d 256 p.b3 y).map leakyReluLayer
  let y4 ← (conv2d 256 512 3 2 1 1 p.c4 y3).bind fun y =>
    (batchNorm2d 512 p.b4 y).map leakyReluLayer
  let y5 ← (conv2d 512 1 3 1 1 1 p.c5 y4).bind (batchNorm2d 1 p.b5)
  return sigmoidLayer y5

/-- Parameters of `SNDiscriminator`: five convolutions.  `SpectralNorm`
rescales each of the first four convolution weights by its largest singular
value; since the parameters are abstract, each spectrally normalized layer is
modelled as a convolution with an abstract (already rescaled) weight. -/
structure SNDiscParams where
  c1 : ConvParams
  c2 : ConvParams
  c3 : ConvParams
  c4 : ConvParams
  c5 : ConvParams

/-- `SNDiscriminator.forward`: four stages SpectralNorm(Conv2d(k=3, s=2, p=1))
→ LeakyReLU at channels 64, 128, 256, 512, then a bare
Conv2d(512, 1, k=3, s=1, p=1) with no normalization and no activation. -/
def snDiscForward (inDim : ℕ) (p : SNDiscParams) (x : Tensor) : Option Tensor := do
  let y1 ← (conv2d inDim 64 3 2 1 1 p.c1 x).map leakyReluLayer
  let y2 ← (conv2d 64 128 3 2 1 1 p.c2 y1).map leakyReluLayer
  let y3 ← (conv2d 128 256 3 2 1 1 p.c3 y2).map leakyReluLayer
  let y4 ← (conv2d 256 512 3 2 1 1 p.c4 y3).map leakyReluLayer
  conv2d 512 1 3 1 1 1 p.c5 y4

/-- Parameters of `DiscriminatorMixed`: two independent `Discriminator`s. -/
structure MixedParams where
  D1 : DiscParams
  D2 : DiscParams

/-- `DiscriminatorMixed.forward((x1, x2))`: o1 = D1(x1); o2 = D2(x2);
return (o1, o2). -/
def discMixedForward (inDim1 inDim2 : ℕ) (p : MixedParams) (inputs : Tensor × Tensor) :
    Option (Tensor × Tensor) := do
  let (x1, x2) := inputs
  let o1 ← discForward inDim1 p.D1 x1
  let o2 ← discForward inDim2 p.D2 x2
  return (o1, o2)

/-- Modelled from the spec (claim C7 as stated): the `Residual` computation
with leaky rectification applied between the first two convolutions and
nowhere else before the shortcut, then the sum with the input, normalized
and leaky-rectified.  Compare with `residualForward`, which is transcribed
from the source. -/
def residualClaimC7 (inDim : ℕ) (p : ResidualParams) (x : Tensor) : Option Tensor := do
  let a ← conv2d inDim (inDim / 4) 1 1 0 1 p.conv1 x
  let b ← conv2d (inDim / 4) (inDim / 4) 3 1 1 1 p.conv2 (leakyReluLayer a)
  let c ← conv2d (inDim / 4) inDim 1 1 0 1 p.conv3 b
  let out ← addT c x
  (batchNorm2d inDim p.bn out).map leakyReluLayer

/-- The amended claim C7: leaky rectification after each of the first two
convolutions (so between the first and second, and between the second and
third), none after the third before the shortcut; the result is added to the
input, then normalized and leaky-rectified. -/
def residualAmendedC7 (inDim : ℕ) (p : ResidualParams) (x : Tensor) : Option Tensor :=
  (conv2d inDim (inDim / 4) 1 1 0 1 p.conv1 x).bind fun a =>
    (conv2d (inDim / 4) (inDim / 4) 3 1 1 1 p.conv2 (leakyReluLayer a)).bind fun b =>
      (conv2d (inDim / 4) inDim 1 1 0 1 p.conv3 (leakyReluLayer b)).bind fun c =>
        (addT c x).bind fun s => (batchNorm2d inDim p.bn s).map leakyReluLayer

/-- Parameters of the discriminator described by claim C8 as stated: five
stages with normalization at the first four stages only. -/
structure DiscC8Params where
  c1 : ConvParams
  b1 : BNParams
  c2 : ConvParams
  b2 : BNParams
  c3 : ConvParams
  b3 : BNParams
  c4 : ConvParams
  b4 : BNParams
  c5 : ConvParams

/-- Modelled from the spec (claim C8 as stated): a 5-stage stride-2
convolutional stack with channels 64→128→256→512→1, normalization and leaky
rectification at each of the first four stages only, and a sigmoid-activated
final stage.  Compare with `discForward`, which is transcribed from the
source (whose fifth convolution has stride 1 and is followed by a batch
norm before the sigmoid). -/
def discClaimC8 (inDim : ℕ) (p : DiscC8Params) (x : Tensor) : Option Tensor := do
  let y1 ← (conv2d inDim 64 3 2 1 1 p.c1 x).bind fun y =>
    (batchNorm2d 64 p.b1 y).map leakyReluLayer
  let y2 ← (conv2d 64 128 3 2 1 1 p.c2 y1).bind fun y =>
    (batchNorm2d 128 p.b2 y).map leakyReluLayer
  let y3 ← (conv2d 128 256 3 2 1 1 p.c3 y2).bind fun y =>
    (batchNorm2d 256 p.b3 y).map leakyReluLayer
  let y4 ← (conv2d 256 512 3 2 1 1 p.c4 y3).bind fun y =>
    (batchNorm2d 512 p.b4 y).map leakyReluLayer
  let y5 ← conv2d 512 1 3 2 1 1 p.c5 y4
  return sigmoidLayer y5

/-- The amended claim C8: a 5-stage convolutional stack with channels
64→128→256→512→1 in which the first four stages have stride 2 and the fifth
has stride 1; every stage applies batch normalization, leaky rectification
follows each of the first four stages, and the fifth stage is
sigmoid-activated to a single-channel map. -/
def discAmendedC8 (inDim : ℕ) (p : DiscParams) (x : Tensor) : Option Tensor :=
  (conv2d inDim 64 3 2 1 1 p.c1 x).bind fun z1 =>
    (batchNorm2d 64 p.b1 z1).bind fun n1 =>
      (conv2d 64 128 3 2 1 1 p.c2 (leakyReluLayer n1)).bind fun z2 =>
        (batchNorm2d 128 p.b2 z2).bind fun n2 =>
          (conv2d 128 256 3 2 1 1 p.c3 (leakyReluLayer n2)).bind fun z3 =>
            (batchNorm2d 256 p.b3 z3).bind fun n3 =>
              (conv2d 256 512 3 2 1 1 p.c4 (leakyReluLayer n3)).bind fun z4 =>
                (batchNorm2d 512 p.b4 z4).bind fun n4 =>
                  (conv2d 512 1 3 1 1 1 p.c5 (leakyReluLayer n4)).bind fun z5 =>
                    (batchNorm2d 1 p.b5 z5).map sigmoidLayer

/-- All-zero convolution parameters. -/
def zeroConv : ConvParams := ⟨fun _ _ _ _ => 0, fun _ => 0⟩

/-- Identity batch-norm parameters (scale 1, shift 0). -/
def idBN : BNParams := ⟨fun _ => 1, fun _ => 0⟩

/-- A conv_bn_relu block with zero convolution and identity batch norm. -/
def zeroCBR : CBRParams := ⟨zeroConv, idBN⟩

/-- A `Residual` unit with zero convolutions and identity batch norm. -/
def zeroResidual : ResidualParams := ⟨zeroConv, zeroConv, zeroConv, idBN⟩

/-- A `ResNet` with zero parameters. -/
def zeroResNet : ResNetParams := ⟨zeroResidual, zeroResidual, zeroResidual, zeroResidual⟩

/-- An `EncoderNet` with zero parameters. -/
def zeroEncoder : EncoderParams :=
  ⟨zeroCBR, zeroCBR, zeroConv, zeroCBR, zeroCBR, zeroConv, zeroCBR, zeroCBR,
    zeroConv, zeroCBR, zeroCBR⟩

/-- A `DecoderNet` with zero parameters. -/
def zeroDecoder : DecoderParams :=
  ⟨zeroCBR, zeroCBR, zeroConv, zeroCBR, zeroCBR, zeroConv, zeroCBR, zeroCBR,
    zeroConv, zeroCBR, zeroCBR⟩

/-- A `TextConversionNet` with zero parameters. -/
def zeroTCN : TCNParams :=
  ⟨zeroEncoder, zeroResNet, zeroEncoder, zeroResNet, zeroDecoder, zeroConv,
    zeroDecoder, zeroCBR, zeroConv⟩

/-- A `BackgroundInpaintingNet` with zero parameters. -/
def zeroBIN : BINParams := ⟨zeroEncoder, zeroResNet, zeroDecoder, zeroConv⟩

/-- A `FusionNet` with zero parameters. -/
def zeroFusion : FusionParams := ⟨zeroEncoder, zeroResNet, zeroDecoder, zeroConv⟩

/-- A `Generator` with zero parameters. -/
def zeroGenerator : GeneratorParams := ⟨zeroTCN, zeroBIN, zeroFusion⟩

/-- A `Discriminator` with zero convolutions and identity batch norms. -/
def zeroDisc : DiscParams :=
  ⟨zeroConv, idBN, zeroConv, idBN, zeroConv, idBN, zeroConv, idBN, zeroConv, idBN⟩

/-- A `DiscriminatorMixed` with zero parameters. -/
def zeroMixed : MixedParams := ⟨zeroDisc, zeroDisc⟩

/-- The C8-claimed discriminator with zero parameters. -/
def zeroDiscC8 : DiscC8Params :=
  ⟨zeroConv, idBN, zeroConv, idBN, zeroConv, idBN, zeroConv, idBN, zeroConv⟩

/-- An `SNDiscriminator` whose convolutions are zero except for the final
bias, which is 2 on every channel: its output is constantly 2, outside both
[0, 1] and [-1, 1]. -/
def snDiscBias2 : SNDiscParams :=
  ⟨zeroConv, zeroConv, zeroConv, zeroConv, ⟨fun _ _ _ _ => 0, fun _ => 2⟩⟩

/-- An all-zero input image of batch 1 and extent 3×256×256. -/
def img256 : Tensor := ⟨1, 3, 256, 256, fun _ _ _ _ => 0⟩

/-- An all-zero input image of batch 1 and extent 3×8×8. -/
def img8 : Tensor := ⟨1, 3, 8, 8, fun _ _ _ _ => 0⟩

/-- An all-zero tensor of batch 1 and extent 4×1×1. -/
def img4c : Tensor := ⟨1, 4, 1, 1, fun _ _ _ _ => 0⟩

/-- An all-zero input of batch 1 and extent 6×16×16. -/
def img16 : Tensor := ⟨1, 6, 16, 16, fun _ _ _ _ => 0⟩

/-- An all-zero input of batch 1 and extent 6×32×32. -/
def img32 : Tensor := ⟨1, 6, 32, 32, fun _ _ _ _ => 0⟩

/-- An all-zero input of batch 1 and extent 6×2×2. -/
def img2 : Tensor := ⟨1, 6, 2, 2, fun _ _ _ _ => 0⟩

/-- `Residual` parameters that distinguish the source computation from claim
C7 as stated: the first two convolutions are constantly -1 (zero weights,
bias -1), the third is the identity 1×1 convolution on one channel
(weight 1, bias 0), and the batch norm is the identity. -/
def resParamsC7 : ResidualParams :=
  ⟨⟨fun _ _ _ _ => 0, fun _ => -1⟩, ⟨fun _ _ _ _ => 0, fun _ => -1⟩,
    ⟨fun _ _ _ _ => 1, fun _ => 0⟩, idBN⟩

/-- The output of the zero-parameter `Discriminator` on the zero 6×16×16
input (used to witness claim C5 at a concrete point). -/
def discZeroOut : Tensor :=
  (discForward 6 zeroDisc img16).getD ⟨0, 0, 0, 0, fun _ _ _ _ => 0⟩

end

@[simp] theorem mapData_n (f : ℝ → ℝ) (t : Tensor) : (mapData f t).n = t.n := rfl

@[simp] theorem mapData_c (f : ℝ → ℝ) (t : Tensor) : (mapData f t).c = t.c := rfl

@[simp] theorem mapData_h (f : ℝ → ℝ) (t : Tensor) : (mapData f t).h = t.h := rfl

@[simp] theorem mapData_w (f : ℝ → ℝ) (t : Tensor) : (mapData f t).w = t.w := rfl

@[simp] theorem mapData_data (f : ℝ → ℝ) (t : Tensor) (b c i j : ℕ) :
    (mapData f t).data b c i j = f (t.data b c i j) := rfl

@[simp] theorem leakyReluLayer_n (t : Tensor) : (leakyReluLayer t).n = t.n := rfl

@[simp] theorem leakyReluLayer_c (t : Tensor) : (leakyReluLayer t).c = t.c := rfl

@[simp] theorem leakyReluLayer_h (t : Tensor) : (leakyReluLayer t).h = t.h := rfl

@[simp] theorem leakyReluLayer_w (t : Tensor) : (leakyReluLayer t).w = t.w := rfl

@[simp] theorem sigmoidLayer_n (t : Tensor) : (sigmoidLayer t).n = t.n := rfl

@[simp] theorem sigmoidLayer_c (t : Tensor) : (sigmoidLayer t).c = t.c := rfl

@[simp] theorem sigmoidLayer_h (t : Tensor) : (sigmoidLayer t).h = t.h := rfl

@[simp] theorem sigmoidLayer_w (t : Tensor) : (sigmoidLayer t).w = t.w := rfl

@[simp] theorem tanhLayer_n (t : Tensor) : (tanhLayer t).n = t.n := rfl

@[simp] theorem tanhLayer_c (t : Tensor) : (tanhLayer t).c = t.c := rfl

@[simp] theorem tanhLayer_h (t : Tensor) : (tanhLayer t).h = t.h := rfl

@[simp] theorem tanhLayer_w (t : Tensor) : (tanhLayer t).w = t.w := rfl

theorem convOut_same (h : ℕ) (hh : 0 < h) : convOut h 3 1 1 1 = h := by
  unfold convOut; omega

theorem convOut_one (h : ℕ) (hh : 0 < h) : convOut h 1 1 0 1 = h := by
  unfold convOut; omega

theorem convOut_half (h : ℕ) (h2 : 2 ∣ h) (hh : 0 < h) : convOut h 3 2 1 1 = h / 2 := by
  unfold convOut; omega

theorem deconvOut_double (h : ℕ) (hh : 0 < h) : deconvOut h 3 2 1 1 = 2 * h := by
  unfold deconvOut; omega

theorem conv2d_some {x : Tensor} (inC outC k s p d : ℕ) (cp : ConvParams)
    (hc : x.c = inC) (hh : d * (k - 1) + 1 ≤ x.h + 2 * p)
    (hw : d * (k - 1) + 1 ≤ x.w + 2 * p) :
    ∃ y, conv2d inC outC k s p d cp x = some y ∧
      y.n = x.n ∧ y.c = outC ∧ y.h = convOut x.h k s p d ∧ y.w = convOut x.w k s p d := by
  rw [conv2d, if_pos ⟨hc, hh, hw⟩]
  exact ⟨_, rfl, rfl, rfl, rfl, rfl⟩

theorem convTranspose2d_some {x : Tensor} (inC outC k s p op : ℕ) (cp : ConvParams)
    (hc : x.c = inC) (hh : 1 ≤ x.h) (hw : 1 ≤ x.w)
    (hoh : 2 * p + 1 ≤ (x.h - 1) * s + (k + op))
    (how : 2 * p + 1 ≤ (x.w - 1) * s + (k + op)) :
    ∃ y, convTranspose2d inC outC k s p op cp x = some y ∧
      y.n = x.n ∧ y.c = outC ∧ y.h = deconvOut x.h k s p op ∧ y.w = deconvOut x.w k s p op := by
  rw [convTranspose2d, if_pos ⟨hc, hh, hw, hoh, how⟩]
  exact ⟨_, rfl, rfl, rfl, rfl, rfl⟩

theorem batchNorm2d_some {x : Tensor} (nf : ℕ) (bp : BNParams) (hc : x.c = nf) :
    ∃ y, batchNorm2d nf bp x = some y ∧
      y.n = x.n ∧ y.c = x.c ∧ y.h = x.h ∧ y.w = x.w := by
  rw [batchNorm2d, if_pos hc]
  exact ⟨_, rfl, rfl, rfl, rfl, rfl⟩

theorem catC_some {a b : Tensor} (hn : a.n = b.n) (hh : a.h = b.h) (hw : a.w = b.w) :
    ∃ y, catC a b = some y ∧
      y.n = a.n ∧ y.c = a.c + b.c ∧ y.h = a.h ∧ y.w = a.w := by
  rw [catC, if_pos ⟨hn, hh, hw⟩]
  exact ⟨_, rfl, rfl, rfl, rfl, rfl⟩

theorem addT_some {a b : Tensor} (hn : a.n = b.n) (hc : a.c = b.c) (hh : a.h = b.h)
    (hw : a.w = b.w) :
    ∃ y, addT a b = some y ∧
      y.n = a.n ∧ y.c = a.c ∧ y.h = a.h ∧ y.w = a.w := by
  rw [addT, if_pos ⟨hn, hc, hh, hw⟩]
  exact ⟨_, rfl, rfl, rfl, rfl, rfl⟩

theorem cbr_some {x : Tensor} (inC outC : ℕ) (p : CBRParams) (hc : x.c = inC)
    (hh : 0 < x.h) (hw : 0 < x.w) :
    ∃ y, conv_bn_relu inC outC p x = some y ∧
      y.n = x.n ∧ y.c = outC ∧ y.h = x.h ∧ y.w = x.w := by
  obtain ⟨a, ha, a1, a2, a3, a4⟩ := conv2d_some inC outC 3 1 1 1 p.conv hc
    (by omega) (by omega)
  rw [convOut_same _ hh] at a3
  rw [convOut_same _ hw] at a4
  obtain ⟨b, hb, b1, b2, b3, b4⟩ := batchNorm2d_some outC p.bn a2
  refine ⟨leakyReluLayer b, ?_, ?_, ?_, ?_, ?_⟩
  · simp [conv_bn_relu, ha, hb]
  · simp [b1, a1]
  · simp [b2, a2]
  · simp [b3, a3]
  · simp [b4, a4]

theorem down_some {x : Tensor} (inC outC : ℕ) (cp : ConvParams) (hc : x.c = inC)
    (h2 : 2 ∣ x.h) (w2 : 2 ∣ x.w) (hh : 0 < x.h) (hw : 0 < x.w) :
    ∃ y, conv2d inC outC 3 2 1 1 cp x = some y ∧
      y.n = x.n ∧ y.c = outC ∧ y.h = x.h / 2 ∧ y.w = x.w / 2 := by
  obtain ⟨a, ha, a1, a2, a3, a4⟩ := conv2d_some inC outC 3 2 1 1 cp hc
    (by omega) (by omega)
  rw [convOut_half _ h2 hh] at a3
  rw [convOut_half _ w2 hw] at a4
  exact ⟨a, ha, a1, a2, a3, a4⟩

theorem up_some {x : Tensor} (inC outC : ℕ) (cp : ConvParams) (hc : x.c = inC)
    (hh : 0 < x.h) (hw : 0 < x.w) :
    ∃ y, convTranspose2d inC outC 3 2 1 1 cp x = some y ∧
      y.n = x.n ∧ y.c = outC ∧ y.h = 2 * x.h ∧ y.w = 2 * x.w := by
  obtain ⟨a, ha, a1, a2, a3, a4⟩ := convTranspose2d_some inC outC 3 2 1 1 cp hc
    hh hw (by omega) (by omega)
  rw [deconvOut_double _ hh] at a3
  rw [deconvOut_double _ hw] at a4
  exact ⟨a, ha, a1, a2, a3, a4⟩

theorem encoderL1_some {x : Tensor} (inDim : ℕ) (p : EncoderParams) (hc : x.c = inDim)
    (hh : 0 < x.h) (hw : 0 < x.w) :
    ∃ y, encoderL1 inDim p x = some y ∧
      y.n = x.n ∧ y.c = 32 ∧ y.h = x.h ∧ y.w = x.w := by
  obtain ⟨a, ha, a1, a2, a3, a4⟩ := cbr_some inDim 32 p.l1a hc hh hw
  obtain ⟨b, hb, b1, b2, b3, b4⟩ := cbr_some 32 32 p.l1b a2 (by omega) (by omega)
  exact ⟨b, by simp [encoderL1, ha, hb], by omega, b2, by omega, by omega⟩

theorem encoderL2_some {x : Tensor} (p : EncoderParams) (hc : x.c = 32)
    (h2 : 2 ∣ x.h) (w2 : 2 ∣ x.w) (hh : 0 < x.h) (hw : 0 < x.w) :
    ∃ y, encoderL2 p x = some y ∧
      y.n = x.n ∧ y.c = 64 ∧ y.h = x.h / 2 ∧ y.w = x.w / 2 := by
  obtain ⟨a, ha, a1, a2, a3, a4⟩ := down_some 32 64 p.l2c hc h2 w2 hh hw
  obtain ⟨b, hb, b1, b2, b3, b4⟩ := cbr_some 64 64 p.l2a (x := leakyReluLayer a)
    (by simp [a2]) (by simp; omega) (by simp; omega)
  simp only [leakyReluLayer_n, leakyReluLayer_h, leakyReluLayer_w] at b1 b3 b4
  obtain ⟨c, hcc, c1, c2, c3, c4⟩ := cbr_some 64 64 p.l2b b2 (by omega) (by omega)
  refine ⟨c, ?_, by omega, c2, by omega, by omega⟩
  simp [encoderL2, ha, hb, hcc]

theorem encoderL3_some {x : Tensor} (p : EncoderParams) (hc : x.c = 64)
    (h2 : 2 ∣ x.h) (w2 : 2 ∣ x.w) (hh : 0 < x.h) (hw : 0 < x.w) :
    ∃ y, encoderL3 p x = some y ∧
      y.n = x.n ∧ y.c = 128 ∧ y.h = x.h / 2 ∧ y.w = x.w / 2 := by
  obtain ⟨a, ha, a1, a2, a3, a4⟩ := down_some 64 128 p.l3c hc h2 w2 hh hw
  obtain ⟨b, hb, b1, b2, b3, b4⟩ := cbr_some 128 128 p.l3a (x := leakyReluLayer a)
    (by simp [a2]) (by simp; omega) (by simp; omega)
  simp only [leakyReluLayer_n, leakyReluLayer_h, leakyReluLayer_w] at b1 b3 b4
  obtain ⟨c, hcc, c1, c2, c3, c4⟩ := cbr_some 128 128 p.l3b b2 (by omega) (by omega)
  refine ⟨c, ?_, by omega, c2, by omega, by omega⟩
  simp [encoderL3, ha, hb, hcc]

theorem encoderL4_some {x : Tensor} (p : EncoderParams) (hc : x.c = 128)
    (h2 : 2 ∣ x.h) (w2 : 2 ∣ x.w) (hh : 0 < x.h) (hw : 0 < x.w) :
    ∃ y, encoderL4 p x = some y ∧
      y.n = x.n ∧ y.c = 256 ∧ y.h = x.h / 2 ∧ y.w = x.w / 2 := by
  obtain ⟨a, ha, a1, a2, a3, a4⟩ := down_some 128 256 p.l4c hc h2 w2 hh hw
  obtain ⟨b, hb, b1, b2, b3, b4⟩ := cbr_some 256 256 p.l4a (x := leakyReluLayer a)
    (by simp [a2]) (by simp; omega) (by simp; omega)
  simp only [leakyReluLayer_n, leakyReluLayer_h, leakyReluLayer_w] at b1 b3 b4
  obtain ⟨c, hcc, c1, c2, c3, c4⟩ := cbr_some 256 256 p.l4b b2 (by omega) (by omega)
  refine ⟨c, ?_, by omega, c2, by omega, by omega⟩
  simp [encoderL4, ha, hb, hcc]

theorem encoderFM_some {x : Tensor} (inDim : ℕ) (p : EncoderParams) (hc : x.c = inDim)
    (h8 : 8 ∣ x.h) (w8 : 8 ∣ x.w) (hh : 0 < x.h) (hw : 0 < x.w) :
    ∃ out f2 f1, encoderForwardFM inDim p x = some (out, [f2, f1]) ∧
      out.n = x.n ∧ out.c = 256 ∧ out.h = x.h / 8 ∧ out.w = x.w / 8 ∧
      f2.n = x.n ∧ f2.c = 128 ∧ f2.h = x.h / 4 ∧ f2.w = x.w / 4 ∧
      f1.n = x.n ∧ f1.c = 64 ∧ f1.h = x.h / 2 ∧ f1.w = x.w / 2 := by
  obtain ⟨a, ha, a1, a2, a3, a4⟩ := encoderL1_some inDim p hc hh hw
  obtain ⟨b, hb, b1, b2, b3, b4⟩ := encoderL2_some p a2
    (by omega) (by omega) (by omega) (by omega)
  obtain ⟨c, hcc, c1, c2, c3, c4⟩ := encoderL3_some p b2
    (by omega) (by omega) (by omega) (by omega)
  obtain ⟨d, hd, d1, d2, d3, d4⟩ := encoderL4_some p c2
    (by omega) (by omega) (by omega) (by omega)
  refine ⟨d, c, b, ?_, by omega, d2, by omega, by omega,
    by omega, c2, by omega, by omega, by omega, b2, by omega, by omega⟩
  simp [encoderForwardFM, ha, hb, hcc, hd]

theorem encoder_some {x : Tensor} (inDim : ℕ) (p : EncoderParams) (hc : x.c = inDim)
    (h8 : 8 ∣ x.h) (w8 : 8 ∣ x.w) (hh : 0 < x.h) (hw : 0 < x.w) :
    ∃ y, encoderForward inDim p x = some y ∧
      y.n = x.n ∧ y.c = 256 ∧ y.h = x.h / 8 ∧ y.w = x.w / 8 := by
  obtain ⟨out, f2, f1, hfm, o1, o2, o3, o4, _⟩ := encoderFM_some inDim p hc h8 w8 hh hw
  exact ⟨out, by simp [encoderForward, hfm], o1, o2, o3, o4⟩

theorem residual_some {x : Tensor} (inDim : ℕ) (p : ResidualParams) (hc : x.c = inDim)
    (hh : 0 < x.h) (hw : 0 < x.w) :
    ∃ y, residualForward inDim p x = some y ∧
      y.n = x.n ∧ y.c = x.c ∧ y.h = x.h ∧ y.w = x.w := by
  obtain ⟨a, ha, a1, a2, a3, a4⟩ := conv2d_some inDim (inDim / 4) 1 1 0 1 p.conv1 hc
    (by omega) (by omega)
  rw [convOut_one _ hh] at a3
  rw [convOut_one _ hw] at a4
  obtain ⟨b, hb, b1, b2, b3, b4⟩ := conv2d_some (inDim / 4) (inDim / 4) 3 1 1 1 p.conv2
    (x := leakyReluLayer a) (by simp [a2]) (by simp; omega) (by simp; omega)
  simp only [leakyReluLayer_n, leakyReluLayer_h, leakyReluLayer_w] at b1 b3 b4
  rw [a3, convOut_same _ hh] at b3
  rw [a4, convOut_same _ hw] at b4
  obtain ⟨c, hcc, c1, c2, c3, c4⟩ := conv2d_some (inDim / 4) inDim 1 1 0 1 p.conv3
    (x := leakyReluLayer b) (by simp [b2]) (by simp; omega) (by simp; omega)
  simp only [leakyReluLayer_n, leakyReluLayer_h, leakyReluLayer_w] at c1 c3 c4
  rw [b3, convOut_one _ hh] at c3
  rw [b4, convOut_one _ hw] at c4
  obtain ⟨s, hs, s1, s2, s3, s4⟩ := addT_some (a := c) (b := x)
    (by omega) (by omega) c3 c4
  obtain ⟨m, hm, m1, m2, m3, m4⟩ := batchNorm2d_some inDim p.bn (x := s) (by omega)
  refine ⟨leakyReluLayer m, ?_, by simp; omega, by simp; omega, by simp; omega,
    by simp; omega⟩
  simp [residualForward, residualConv, ha, hb, hcc, hs, hm]

theorem resNet_some {x : Tensor} (inDim : ℕ) (p : ResNetParams) (hc : x.c = inDim)
    (hh : 0 < x.h) (hw : 0 < x.w) :
    ∃ y, resNetForward inDim p x = some y ∧
      y.n = x.n ∧ y.c = x.c ∧ y.h = x.h ∧ y.w = x.w := by
  obtain ⟨a, ha, a1, a2, a3, a4⟩ := residual_some inDim p.r1 hc hh hw
  obtain ⟨b, hb, b1, b2, b3, b4⟩ := residual_some inDim p.r2 (x := a)
    (by omega) (by omega) (by omega)
  obtain ⟨c, hcc, c1, c2, c3, c4⟩ := residual_some inDim p.r3 (x := b)
    (by omega) (by omega) (by omega)
  obtain ⟨d, hd, d1, d2, d3, d4⟩ := residual_some inDim p.r4 (x := c)
    (by omega) (by omega) (by omega)
  refine ⟨d, ?_, by omega, by omega, by omega, by omega⟩
  simp [resNetForward, ha, hb, hcc, hd]

theorem fuseCat_some {x : Tensor} {s : Option Tensor} (fc inDim : ℕ) (hc : x.c = inDim)
    (hs : (s = none ∧ fc = 0) ∨
      ∃ t, s = some t ∧ t.n = x.n ∧ t.c = fc ∧ t.h = x.h ∧ t.w = x.w) :
    ∃ y, fuseCat x s = some y ∧
      y.n = x.n ∧ y.c = inDim + fc ∧ y.h = x.h ∧ y.w = x.w := by
  rcases hs with ⟨rfl, rfl⟩ | ⟨t, rfl, htn, htc, hth, htw⟩
  · exact ⟨x, rfl, rfl, by omega, rfl, rfl⟩
  · obtain ⟨y, hy, y1, y2, y3, y4⟩ := catC_some (a := x) (b := t)
      (by omega) (by omega) (by omega)
    exact ⟨y, hy, y1, by omega, y3, y4⟩

theorem decoderCore_some {x : Tensor} (inDim f1c f2c f3c : ℕ) (p : DecoderParams)
    {s0 s1 s2 : Option Tensor} (hc : x.c = inDim) (hh : 0 < x.h) (hw : 0 < x.w)
    (hs0 : (s0 = none ∧ f1c = 0) ∨
      ∃ t, s0 = some t ∧ t.n = x.n ∧ t.c = f1c ∧ t.h = x.h ∧ t.w = x.w)
    (hs1 : (s1 = none ∧ f2c = 0) ∨
      ∃ t, s1 = some t ∧ t.n = x.n ∧ t.c = f2c ∧ t.h = 2 * x.h ∧ t.w = 2 * x.w)
    (hs2 : (s2 = none ∧ f3c = 0) ∨
      ∃ t, s2 = some t ∧ t.n = x.n ∧ t.c = f3c ∧ t.h = 4 * x.h ∧ t.w = 4 * x.w) :
    ∃ out o1 o2 o3, decoderCore inDim f1c f2c f3c p x s0 s1 s2 = some (out, [o1, o2, o3]) ∧
      out.n = x.n ∧ out.c = 32 ∧ out.h = 8 * x.h ∧ out.w = 8 * x.w ∧
      o1.n = x.n ∧ o1.c = 256 ∧ o1.h = x.h ∧ o1.w = x.w ∧
      o2.n = x.n ∧ o2.c = 128 ∧ o2.h = 2 * x.h ∧ o2.w = 2 * x.w ∧
      o3.n = x.n ∧ o3.c = 64 ∧ o3.h = 4 * x.h ∧ o3.w = 4 * x.w := by
  obtain ⟨x1, e1, x1n, x1c, x1h, x1w⟩ := fuseCat_some f1c inDim hc hs0
  obtain ⟨a, ha, a1, a2, a3, a4⟩ := cbr_some (inDim + f1c) 256 p.c1a x1c
    (by omega) (by omega)
  obtain ⟨o1, ho1, o11, o12, o13, o14⟩ := cbr_some 256 256 p.c1b a2 (by omega) (by omega)
  obtain ⟨d1t, hd1, d11, d12, d13, d14⟩ := up_some 256 128 p.d1 o12 (by omega) (by omega)
  obtain ⟨x2, e2, x2n, x2c, x2h, x2w⟩ := fuseCat_some (x := leakyReluLayer d1t)
    (s := s1) f2c 128 (by simp [d12]) (by
      rcases hs1 with ⟨h, h0⟩ | ⟨t, h, htn, htc, hth, htw⟩
      · exact Or.inl ⟨h, h0⟩
      · exact Or.inr ⟨t, h, by simp; omega, htc, by simp; omega, by simp; omega⟩)
  simp only [leakyReluLayer_n, leakyReluLayer_h, leakyReluLayer_w] at x2n x2h x2w
  obtain ⟨b, hb, b1, b2, b3, b4⟩ := cbr_some (128 + f2c) 128 p.c2a x2c
    (by omega) (by omega)
  obtain ⟨o2, ho2, o21, o22, o23, o24⟩ := cbr_some 128 128 p.c2b b2 (by omega) (by omega)
  obtain ⟨d2t, hd2, d21, d22, d23, d24⟩ := up_some 128 64 p.d2 o22 (by omega) (by omega)
  obtain ⟨x3, e3, x3n, x3c, x3h, x3w⟩ := fuseCat_some (x := leakyReluLayer d2t)
    (s := s2) f3c 64 (by simp [d22]) (by
      rcases hs2 with ⟨h, h0⟩ | ⟨t, h, htn, htc, hth, htw⟩
      · exact Or.inl ⟨h, h0⟩
      · exact Or.inr ⟨t, h, by simp; omega, htc, by simp; omega, by simp; omega⟩)
  simp only [leakyReluLayer_n, leakyReluLayer_h, leakyReluLayer_w] at x3n x3h x3w
  obtain ⟨c, hcc, c1, c2, c3, c4⟩ := cbr_some (64 + f3c) 64 p.c3a x3c
    (by omega) (by omega)
  obtain ⟨o3, ho3, o31, o32, o33, o34⟩ := cbr_some 64 64 p.c3b c2 (by omega) (by omega)
  obtain ⟨d3t, hd3, d31, d32, d33, d34⟩ := up_some 64 32 p.d3 o32 (by omega) (by omega)
  obtain ⟨f, hf, f1, f2, f3, f4⟩ := cbr_some 32 32 p.c4a (x := leakyReluLayer d3t)
    (by simp [d32]) (by simp; omega) (by simp; omega)
  simp only [leakyReluLayer_n, leakyReluLayer_h, leakyReluLayer_w] at f1 f3 f4
  obtain ⟨g, hg, g1, g2, g3, g4⟩ := cbr_some 32 32 p.c4b f2 (by omega) (by omega)
  refine ⟨g, o1, o2, o3, ?_, by omega, g2, by omega, by omega,
    by omega, o12, by omega, by omega,
    by omega, o22, by omega, by omega,
    by omega, o32, by omega, by omega⟩
  simp [decoderCore, e1, ha, ho1, hd1, e2, hb, ho2, hd2, e3, hcc, ho3, hd3, hf, hg]

theorem decoderForward_none_eq (inDim f1c f2c f3c : ℕ) (p : DecoderParams) (x : Tensor) :
    decoderForward inDim f1c f2c f3c p x none =
      decoderCore inDim f1c f2c f3c p x none none none := rfl

theorem decoderForward_cons_eq (inDim f1c f2c f3c : ℕ) (p : DecoderParams) (x : Tensor)
    (e0 e1 e2 : Option Tensor) (rest : List (Option Tensor)) :
    decoderForward inDim f1c f2c f3c p x (some (e0 :: e1 :: e2 :: rest)) =
      decoderCore inDim f1c f2c f3c p x e0 e1 e2 := rfl

theorem sigmoid_mem (x : ℝ) : sigmoid x ∈ Set.Icc (0 : ℝ) 1 := by
  have h := Real.exp_pos (-x)
  constructor
  · unfold sigmoid
    positivity
  · unfold sigmoid
    rw [div_le_one (by linarith)]
    linarith

theorem tanh_mem (x : ℝ) : Real.tanh x ∈ Set.Icc (-1 : ℝ) 1 := by
  have hc := Real.cosh_pos x
  have h1 := Real.sinh_lt_cosh x
  have h2 := Real.sinh_lt_cosh (-x)
  rw [Real.sinh_neg, Real.cosh_neg] at h2
  rw [Real.tanh_eq_sinh_div_cosh]
  constructor
  · rw [le_div_iff₀ hc]
    linarith
  · rw [div_le_one hc]
    linarith

theorem sigmoidLayer_data_mem (t : Tensor) (b c i j : ℕ) :
    (sigmoidLayer t).data b c i j ∈ Set.Icc (0 : ℝ) 1 := sigmoid_mem _

theorem tanhLayer_data_mem (t : Tensor) (b c i j : ℕ) :
    (tanhLayer t).data b c i j ∈ Set.Icc (-1 : ℝ) 1 := tanh_mem _

theorem tcn_some {xt xs : Tensor} (inDim : ℕ) (p : TCNParams)
    (hct : xt.c = inDim) (hcs : xs.c = inDim) (hn : xs.n = xt.n)
    (hhs : xs.h = xt.h) (hws : xs.w = xt.w)
    (h8 : 8 ∣ xt.h) (w8 : 8 ∣ xt.w) (hh : 0 < xt.h) (hw : 0 < xt.w) :
    ∃ skPre tPre oSk oT, tcnForward inDim p xt xs = some (oSk, oT) ∧
      oSk = sigmoidLayer skPre ∧ oT = tanhLayer tPre ∧
      oSk.n = xt.n ∧ oSk.c = 1 ∧ oSk.h = xt.h ∧ oSk.w = xt.w ∧
      oT.n = xt.n ∧ oT.c = 3 ∧ oT.h = xt.h ∧ oT.w = xt.w := by
  obtain ⟨et, het, et1, et2, et3, et4⟩ := encoder_some inDim p.tEnc hct h8 w8 hh hw
  obtain ⟨rt, hrt, rt1, rt2, rt3, rt4⟩ := resNet_some 256 p.tRes (x := et) et2
    (by omega) (by omega)
  obtain ⟨es, hes, es1, es2, es3, es4⟩ := encoder_some inDim p.sEnc hcs
    (by omega) (by omega) (by omega) (by omega)
  obtain ⟨rs, hrs, rs1, rs2, rs3, rs4⟩ := resNet_some 256 p.sRes (x := es) es2
    (by omega) (by omega)
  obtain ⟨ct, hct2, ct1, ct2, ct3, ct4⟩ := catC_some (a := rt) (b := rs)
    (by omega) (by
      have : xs.h / 8 = xt.h / 8 := by rw [hhs]
      omega) (by
      have : xs.w / 8 = xt.w / 8 := by rw [hws]
      omega)
  obtain ⟨dk, k1, k2, k3, hdk, dk1, dk2, dk3, dk4, _⟩ :=
    decoderCore_some (2 * 256) 0 0 0 p.skDec (x := ct)
      (by omega) (by omega) (by omega)
      (Or.inl ⟨rfl, rfl⟩) (Or.inl ⟨rfl, rfl⟩) (Or.inl ⟨rfl, rfl⟩)
  obtain ⟨kc, hkc, kc1, kc2, kc3, kc4⟩ := conv2d_some 32 1 3 1 1 1 p.skConv (x := dk)
    dk2 (by omega) (by omega)
  rw [show dk.h = xt.h by omega, convOut_same _ hh] at kc3
  rw [show dk.w = xt.w by omega, convOut_same _ hw] at kc4
  obtain ⟨dt, t1, t2, t3, hdt, dt1, dt2, dt3, dt4, _⟩ :=
    decoderCore_some (2 * 256) 0 0 0 p.tDec (x := ct)
      (by omega) (by omega) (by omega)
      (Or.inl ⟨rfl, rfl⟩) (Or.inl ⟨rfl, rfl⟩) (Or.inl ⟨rfl, rfl⟩)
  obtain ⟨c2t, hc2, c21, c22, c23, c24⟩ := catC_some (a := sigmoidLayer kc) (b := dt)
    (by simp; omega) (by simp; omega) (by simp; omega)
  simp only [sigmoidLayer_n, sigmoidLayer_c, sigmoidLayer_h, sigmoidLayer_w] at c21 c22 c23 c24
  obtain ⟨cv, hcv, cv1, cv2, cv3, cv4⟩ := cbr_some (32 + 1) (32 + 1) p.tConv (x := c2t)
    (by omega) (by omega) (by omega)
  obtain ⟨lc, hlc, lc1, lc2, lc3, lc4⟩ := conv2d_some (32 + 1) 3 3 1 1 1 p.lastConv
    (x := cv) cv2 (by omega) (by omega)
  rw [show cv.h = xt.h by omega, convOut_same _ hh] at lc3
  rw [show cv.w = xt.w by omega, convOut_same _ hw] at lc4
  refine ⟨kc, lc, sigmoidLayer kc, tanhLayer lc, ?_, rfl, rfl,
    by simp; omega, by simp; omega, by simp; omega, by simp; omega,
    by simp; omega, by simp; omega, by simp; omega, by simp; omega⟩
  simp [tcnForward, het, hrt, hes, hrs, hct2, decoderOut, decoderForward_none_eq,
    hdk, hkc, hdt, hc2, hcv, hlc]

theorem bin_some {x : Tensor} (inDim : ℕ) (p : BINParams) (hc : x.c = inDim)
    (h8 : 8 ∣ x.h) (w8 : 8 ∣ x.w) (hh : 0 < x.h) (hw : 0 < x.w) :
    ∃ bPre oB s1 s2 s3, binForward inDim p x = some (oB, [s1, s2, s3]) ∧
      oB = tanhLayer bPre ∧
      oB.n = x.n ∧ oB.c = 3 ∧ oB.h = x.h ∧ oB.w = x.w ∧
      s1.n = x.n ∧ s1.c = 256 ∧ s1.h = x.h / 8 ∧ s1.w = x.w / 8 ∧
      s2.n = x.n ∧ s2.c = 128 ∧ s2.h = x.h / 4 ∧ s2.w = x.w / 4 ∧
      s3.n = x.n ∧ s3.c = 64 ∧ s3.h = x.h / 2 ∧ s3.w = x.w / 2 := by
  obtain ⟨out, f2, f1, hfm, o1, o2, o3, o4, f21, f22, f23, f24, f11, f12, f13, f14⟩ :=
    encoderFM_some inDim p.enc hc h8 w8 hh hw
  obtain ⟨r, hr, r1, r2, r3, r4⟩ := resNet_some 256 p.res (x := out) o2
    (by omega) (by omega)
  obtain ⟨dout, d1, d2, d3, hdec, e1, e2, e3, e4, g11, g12, g13, g14,
    g21, g22, g23, g24, g31, g32, g33, g34⟩ :=
    decoderCore_some 256 0 128 64 p.dec (x := r) (by omega) (by omega) (by omega)
      (Or.inl ⟨rfl, rfl⟩)
      (Or.inr ⟨f2, rfl, by omega, f22, by omega, by omega⟩)
      (Or.inr ⟨f1, rfl, by omega, f12, by omega, by omega⟩)
  obtain ⟨lc, hlc, lc1, lc2, lc3, lc4⟩ := conv2d_some 32 3 3 1 1 1 p.lastConv
    (x := dout) e2 (by omega) (by omega)
  rw [show dout.h = x.h by omega, convOut_same _ hh] at lc3
  rw [show dout.w = x.w by omega, convOut_same _ hw] at lc4
  refine ⟨lc, tanhLayer lc, d1, d2, d3, ?_, rfl,
    by simp; omega, by simp; omega, by simp; omega, by simp; omega,
    by omega, g12, by omega, by omega,
    by omega, g22, by omega, by omega,
    by omega, g32, by omega, by omega⟩
  simp [binForward, hfm, hr, decoderForward_cons_eq, hdec, hlc]

theorem fusion_some {x s1 s2 s3 : Tensor} (inDim : ℕ) (p : FusionParams)
    (hc : x.c = inDim) (h8 : 8 ∣ x.h) (w8 : 8 ∣ x.w) (hh : 0 < x.h) (hw : 0 < x.w)
    (hs1 : s1.n = x.n ∧ s1.c = 256 ∧ s1.h = x.h / 8 ∧ s1.w = x.w / 8)
    (hs2 : s2.n = x.n ∧ s2.c = 128 ∧ s2.h = x.h / 4 ∧ s2.w = x.w / 4)
    (hs3 : s3.n = x.n ∧ s3.c = 64 ∧ s3.h = x.h / 2 ∧ s3.w = x.w / 2) :
    ∃ fPre oF, fusionForward inDim p x [s1, s2, s3] = some oF ∧
      oF = tanhLayer fPre ∧
      oF.n = x.n ∧ oF.c = 3 ∧ oF.h = x.h ∧ oF.w = x.w := by
  obtain ⟨hn1, hc1, hh1, hw1⟩ := hs1
  obtain ⟨hn2, hc2, hh2, hw2⟩ := hs2
  obtain ⟨hn3, hc3, hh3, hw3⟩ := hs3
  obtain ⟨e, he, e1, e2, e3, e4⟩ := encoder_some inDim p.enc hc h8 w8 hh hw
  obtain ⟨r, hr, r1, r2, r3, r4⟩ := resNet_some 256 p.res (x := e) e2
    (by omega) (by omega)
  obtain ⟨dout, d1, d2, d3, hdec, f1, f2, f3, f4, _⟩ :=
    decoderCore_some 256 256 128 64 p.dec (x := r) (by omega) (by omega) (by omega)
      (Or.inr ⟨s1, rfl, by omega, hc1, by omega, by omega⟩)
      (Or.inr ⟨s2, rfl, by omega, hc2, by omega, by omega⟩)
      (Or.inr ⟨s3, rfl, by omega, hc3, by omega, by omega⟩)
  obtain ⟨lc, hlc, lc1, lc2, lc3, lc4⟩ := conv2d_some 32 3 3 1 1 1 p.lastConv
    (x := dout) f2 (by omega) (by omega)
  rw [show dout.h = x.h by omega, convOut_same _ hh] at lc3
  rw [show dout.w = x.w by omega, convOut_same _ hw] at lc4
  refine ⟨lc, tanhLayer lc, ?_, rfl,
    by simp; omega, by simp; omega, by simp; omega, by simp; omega⟩
  simp [fusionForward, he, hr, decoderOut, decoderForward_cons_eq, hdec, hlc]

theorem disc_some {x : Tensor} (inDim : ℕ) (p : DiscParams) (hc : x.c = inDim)
    (h16 : 16 ∣ x.h) (w16 : 16 ∣ x.w) (hh : 0 < x.h) (hw : 0 < x.w) :
    ∃ pre y, discForward inDim p x = some y ∧ y = sigmoidLayer pre ∧
      y.n = x.n ∧ y.c = 1 ∧ y.h = x.h / 16 ∧ y.w = x.w / 16 := by
  obtain ⟨a1, ha1, a11, a12, a13, a14⟩ := down_some inDim 64 p.c1 hc
    (by omega) (by omega) hh hw
  obtain ⟨b1, hb1, b11, b12, b13, b14⟩ := batchNorm2d_some 64 p.b1 (x := a1) a12
  obtain ⟨a2, ha2, a21, a22, a23, a24⟩ := down_some 64 128 p.c2 (x := leakyReluLayer b1)
    (by simp; omega) (by simp; omega) (by simp; omega) (by simp; omega) (by simp; omega)
  simp only [leakyReluLayer_n, leakyReluLayer_h, leakyReluLayer_w] at a21 a23 a24
  obtain ⟨b2, hb2, b21, b22, b23, b24⟩ := batchNorm2d_some 128 p.b2 (x := a2) a22
  obtain ⟨a3, ha3, a31, a32, a33, a34⟩ := down_some 128 256 p.c3 (x := leakyReluLayer b2)
    (by simp; omega) (by simp; omega) (by simp; omega) (by simp; omega) (by simp; omega)
  simp only [leakyReluLayer_n, leakyReluLayer_h, leakyReluLayer_w] at a31 a33 a34
  obtain ⟨b3, hb3, b31, b32, b33, b34⟩ := batchNorm2d_some 256 p.b3 (x := a3) a32
  obtain ⟨a4, ha4, a41, a42, a43, a44⟩ := down_some 256 512 p.c4 (x := leakyReluLayer b3)
    (by simp; omega) (by simp; omega) (by simp; omega) (by simp; omega) (by simp; omega)
  simp only [leakyReluLayer_n, leakyReluLayer_h, leakyReluLayer_w] at a41 a43 a44
  obtain ⟨b4, hb4, b41, b42, b43, b44⟩ := batchNorm2d_some 512 p.b4 (x := a4) a42
  obtain ⟨a5, ha5, a51, a52, a53, a54⟩ := conv2d_some 512 1 3 1 1 1 p.c5
    (x := leakyReluLayer b4) (by simp; omega) (by simp; omega) (by simp; omega)
  simp only [leakyReluLayer_n, leakyReluLayer_h, leakyReluLayer_w] at a51 a53 a54
  rw [show b4.h = x.h / 16 by omega] at a53
  rw [show b4.w = x.w / 16 by omega] at a54
  rw [convOut_same _ (by omega)] at a53
  rw [convOut_same _ (by omega)] at a54
  obtain ⟨b5, hb5, b51, b52, b53, b54⟩ := batchNorm2d_some 1 p.b5 (x := a5) a52
  refine ⟨b5, sigmoidLayer b5, ?_, rfl,
    by simp; omega, by simp; omega, by simp; omega, by simp; omega⟩
  simp [discForward, ha1, hb1, ha2, hb2, ha3, hb3, ha4, hb4, ha5, hb5]

theorem snDisc_some {x : Tensor} (inDim : ℕ) (p : SNDiscParams) (hc : x.c = inDim)
    (h16 : 16 ∣ x.h) (w16 : 16 ∣ x.w) (hh : 0 < x.h) (hw : 0 < x.w) :
    ∃ y, snDiscForward inDim p x = some y ∧
      y.n = x.n ∧ y.c = 1 ∧ y.h = x.h / 16 ∧ y.w = x.w / 16 := by
  obtain ⟨a1, ha1, a11, a12, a13, a14⟩ := down_some inDim 64 p.c1 hc
    (by omega) (by omega) hh hw
  obtain ⟨a2, ha2, a21, a22, a23, a24⟩ := down_some 64 128 p.c2 (x := leakyReluLayer a1)
    (by simp; omega) (by simp; omega) (by simp; omega) (by simp; omega) (by simp; omega)
  simp only [leakyReluLayer_n, leakyReluLayer_h, leakyReluLayer_w] at a21 a23 a24
  obtain ⟨a3, ha3, a31, a32, a33, a34⟩ := down_some 128 256 p.c3 (x := leakyReluLayer a2)
    (by simp; omega) (by simp; omega) (by simp; omega) (by simp; omega) (by simp; omega)
  simp only [leakyReluLayer_n, leakyReluLayer_h, leakyReluLayer_w] at a31 a33 a34
  obtain ⟨a4, ha4, a41, a42, a43, a44⟩ := down_some 256 512 p.c4 (x := leakyReluLayer a3)
    (by simp; omega) (by simp; omega) (by simp; omega) (by simp; omega) (by simp; omega)
  simp only [leakyReluLayer_n, leakyReluLayer_h, leakyReluLayer_w] at a41 a43 a44
  obtain ⟨a5, ha5, a51, a52, a53, a54⟩ := conv2d_some 512 1 3 1 1 1 p.c5
    (x := leakyReluLayer a4) (by simp; omega) (by simp; omega) (by simp; omega)
  simp only [leakyReluLayer_n, leakyReluLayer_h, leakyReluLayer_w] at a51 a53 a54
  rw [show a4.h = x.h / 16 by omega] at a53
  rw [show a4.w = x.w / 16 by omega] at a54
  rw [convOut_same _ (by omega)] at a53
  rw [convOut_same _ (by omega)] at a54
  refine ⟨a5, ?_, by omega, a52, a53, a54⟩
  simp [snDiscForward, ha1, ha2, ha3, ha4, ha5]

theorem optionBindAssoc {α β γ : Type} (o : Option α) (f : α → Option β) (g : β → Option γ) :
    Option.bind (Option.bind o f) g = Option.bind o fun x => Option.bind (f x) g := by
  cases o <;> rfl

theorem optionMapBindComm {α β γ : Type} (o : Option α) (g : α → β) (f : β → Option γ) :
    Option.bind (o.map g) f = Option.bind o fun x => f (g x) := by
  cases o <;> rfl

theorem optionBindSomeMap {α β : Type} (o : Option α) (g : α → β) :
    (Option.bind o fun y => some (g y)) = o.map g := by
  cases o <;> rfl

theorem optionMapBind {α β γ : Type} (o : Option α) (f : α → Option β) (g : β → γ) :
    Option.map g (Option.bind o f) = Option.bind o fun x => Option.map g (f x) := by
  cases o <;> rfl

/-- C1: for every pair of input images of shape (N, 3, 256, 256),
`Generator.forward((text_image, style_image))` returns exactly four tensors
(mask, stylized text, background, final image) of spatial shape 256×256 with
channel counts (1, 3, 3, 3); every element of the mask lies in [0, 1], and
every element of the background and of the final image lies in [-1, 1]. -/
theorem generator_c1 (N : ℕ) (gp : GeneratorParams) (xt xs : Tensor)
    (hxt : xt.n = N ∧ xt.c = 3 ∧ xt.h = 256 ∧ xt.w = 256)
    (hxs : xs.n = N ∧ xs.c = 3 ∧ xs.h = 256 ∧ xs.w = 256) :
    ∃ oSk oT oB oF, generatorForward 3 gp (xt, xs) = some (oSk, oT, oB, oF) ∧
      shapeOf oSk = (N, 1, 256, 256) ∧ shapeOf oT = (N, 3, 256, 256) ∧
      shapeOf oB = (N, 3, 256, 256) ∧ shapeOf oF = (N, 3, 256, 256) ∧
      (∀ b c i j, oSk.data b c i j ∈ Set.Icc (0 : ℝ) 1) ∧
      (∀ b c i j, oB.data b c i j ∈ Set.Icc (-1 : ℝ) 1) ∧
      (∀ b c i j, oF.data b c i j ∈ Set.Icc (-1 : ℝ) 1) := by
  obtain ⟨tn, tc, th, tw⟩ := hxt
  obtain ⟨sn, sc, sh, sw⟩ := hxs
  obtain ⟨skPre, tPre, oSk, oT, htcn, hSkEq, hTEq, k1, k2, k3, k4, t1, t2, t3, t4⟩ :=
    tcn_some 3 gp.tcn tc sc (by omega) (by omega) (by omega) (by omega) (by omega)
      (by omega) (by omega)
  obtain ⟨bPre, oB, s1, s2, s3, hbin, hBEq, b1, b2, b3, b4,
    s11, s12, s13, s14, s21, s22, s23, s24, s31, s32, s33, s34⟩ :=
    bin_some 3 gp.bin sc (by omega) (by omega) (by omega) (by omega)
  obtain ⟨fPre, oF, hfus, hFEq, f1, f2, f3, f4⟩ :=
    fusion_some 3 gp.fusion (x := oT) t2 (by omega) (by omega) (by omega) (by omega)
      ⟨by omega, s12, by omega, by omega⟩
      ⟨by omega, s22, by omega, by omega⟩
      ⟨by omega, s32, by omega, by omega⟩
  refine ⟨oSk, oT, oB, oF, ?_, ?_, ?_, ?_, ?_, ?_, ?_, ?_⟩
  · simp [generatorForward, htcn, hbin, hfus]
  · simp only [shapeOf, Prod.ext_iff]
    refine ⟨by omega, by omega, by omega, by omega⟩
  · simp only [shapeOf, Prod.ext_iff]
    refine ⟨by omega, by omega, by omega, by omega⟩
  · simp only [shapeOf, Prod.ext_iff]
    refine ⟨by omega, by omega, by omega, by omega⟩
  · simp only [shapeOf, Prod.ext_iff]
    refine ⟨by omega, by omega, by omega, by omega⟩
  · intro b c i j
    rw [hSkEq]
    exact sigmoidLayer_data_mem skPre b c i j
  · intro b c i j
    rw [hBEq]
    exact tanhLayer_data_mem bPre b c i j
  · intro b c i j
    rw [hFEq]
    exact tanhLayer_data_mem fPre b c i j

/-- Witness for C1: the all-zero generator on all-zero 1×3×256×256 inputs. -/
theorem generator_c1_witness :
    ∃ oSk oT oB oF,
      generatorForward 3 zeroGenerator (img256, img256) = some (oSk, oT, oB, oF) ∧
      shapeOf oSk = (1, 1, 256, 256) ∧ shapeOf oT = (1, 3, 256, 256) ∧
      shapeOf oB = (1, 3, 256, 256) ∧ shapeOf oF = (1, 3, 256, 256) ∧
      (∀ b c i j, oSk.data b c i j ∈ Set.Icc (0 : ℝ) 1) ∧
      (∀ b c i j, oB.data b c i j ∈ Set.Icc (-1 : ℝ) 1) ∧
      (∀ b c i j, oF.data b c i j ∈ Set.Icc (-1 : ℝ) 1) :=
  generator_c1 1 zeroGenerator img256 img256 ⟨rfl, rfl, rfl, rfl⟩ ⟨rfl, rfl, rfl, rfl⟩

/-- C2: for every input image whose height and width are both divisible by 8
(and positive), feeding the image through `EncoderNet` and then its output
through `DecoderNet` (with no skip features) yields an output whose spatial
height and width equal those of the original input. -/
theorem encoder_decoder_roundtrip (inDim : ℕ) (pe : EncoderParams) (pd : DecoderParams)
    (x : Tensor) (hc : x.c = inDim) (h8 : 8 ∣ x.h) (w8 : 8 ∣ x.w)
    (hh : 0 < x.h) (hw : 0 < x.w) :
    ∃ y z, encoderForward inDim pe x = some y ∧
      decoderOut 256 0 0 0 pd y none = some z ∧ z.h = x.h ∧ z.w = x.w := by
  obtain ⟨y, hy, y1, y2, y3, y4⟩ := encoder_some inDim pe hc h8 w8 hh hw
  obtain ⟨out, o1, o2, o3, hdec, e1, e2, e3, e4, _⟩ := decoderCore_some 256 0 0 0 pd
    (x := y) y2 (by omega) (by omega)
    (Or.inl ⟨rfl, rfl⟩) (Or.inl ⟨rfl, rfl⟩) (Or.inl ⟨rfl, rfl⟩)
  refine ⟨y, out, hy, ?_, by omega, by omega⟩
  simp [decoderOut, decoderForward_none_eq, hdec]

/-- Witness for C2: the all-zero encoder and decoder on an all-zero
1×3×8×8 input. -/
theorem encoder_decoder_roundtrip_witness :
    ∃ y z, encoderForward 3 zeroEncoder img8 = some y ∧
      decoderOut 256 0 0 0 zeroDecoder y none = some z ∧
      z.h = img8.h ∧ z.w = img8.w :=
  encoder_decoder_roundtrip 3 zeroEncoder zeroDecoder img8 rfl
    (by decide) (by decide) (by decide) (by decide)

/-- C3: for every input of shape (N, 3, 256, 256), `EncoderNet(in_dim=3)` in
feature-map mode returns a final map of shape (N, 256, 32, 32) and a list of
exactly two skip maps whose shapes, in list order, are (N, 128, 64, 64)
followed by (N, 64, 128, 128). -/
theorem encoder_feature_map_shapes (N : ℕ) (p : EncoderParams) (x : Tensor)
    (hx : x.n = N ∧ x.c = 3 ∧ x.h = 256 ∧ x.w = 256) :
    ∃ out f2 f1, encoderForwardFM 3 p x = some (out, [f2, f1]) ∧
      shapeOf out = (N, 256, 32, 32) ∧ shapeOf f2 = (N, 128, 64, 64) ∧
      shapeOf f1 = (N, 64, 128, 128) := by
  obtain ⟨h1, h2, h3, h4⟩ := hx
  obtain ⟨out, f2, f1, hfm, o1, o2, o3, o4, g1, g2, g3, g4, k1, k2, k3, k4⟩ :=
    encoderFM_some 3 p h2 (by omega) (by omega) (by omega) (by omega)
  refine ⟨out, f2, f1, hfm, ?_, ?_, ?_⟩ <;>
    · simp only [shapeOf, Prod.ext_iff]
      refine ⟨by omega, by omega, by omega, by omega⟩

/-- Witness for C3: the all-zero encoder on an all-zero 1×3×256×256 input. -/
theorem encoder_feature_map_shapes_witness :
    ∃ out f2 f1, encoderForwardFM 3 zeroEncoder img256 = some (out, [f2, f1]) ∧
      shapeOf out = (1, 256, 32, 32) ∧ shapeOf f2 = (1, 128, 64, 64) ∧
      shapeOf f1 = (1, 64, 128, 128) :=
  encoder_feature_map_shapes 1 zeroEncoder img256 ⟨rfl, rfl, rfl, rfl⟩

/-- Counterexample to C4 as stated: on a 6×2×2 input the `Discriminator`
output has spatial extent 1×1, whereas the input's height divided by 16 is 0,
so the output spatial extent does not equal the input's divided by 16 for
every input. -/
theorem disc_c4_counterexample :
    (discForward 6 zeroDisc img2).map shapeOf = some (1, 1, 1, 1) ∧
      img2.h / 16 = 0 ∧ img2.w / 16 = 0 := by
  refine ⟨by rfl, by rfl, by rfl⟩

/-- C4 (amended): for every input whose height and width are divisible by 16
(and positive), `Discriminator.forward` returns a single-channel map of
spatial extent (h/16, w/16) with every value in [0, 1];
`SNDiscriminator.forward` on the same input returns a map of the same shape,
and its final layer applies no bounding activation: there are parameters and
an input on which its output value is 2, outside both [0, 1] and [-1, 1]. -/
theorem disc_c4_amended (inDim : ℕ) (p : DiscParams) (q : SNDiscParams) (x : Tensor)
    (hc : x.c = inDim) (h16 : 16 ∣ x.h) (w16 : 16 ∣ x.w) (hh : 0 < x.h) (hw : 0 < x.w) :
    (∃ y, discForward inDim p x = some y ∧ shapeOf y = (x.n, 1, x.h / 16, x.w / 16) ∧
      ∀ b c i j, y.data b c i j ∈ Set.Icc (0 : ℝ) 1) ∧
    (∃ z, snDiscForward inDim q x = some z ∧ shapeOf z = (x.n, 1, x.h / 16, x.w / 16)) ∧
    (∃ (q' : SNDiscParams) (x' z' : Tensor), snDiscForward 6 q' x' = some z' ∧
      z'.data 0 0 0 0 = 2) := by
  refine ⟨?_, ?_, ?_⟩
  · obtain ⟨pre, y, hy, hyEq, y1, y2, y3, y4⟩ := disc_some inDim p hc h16 w16 hh hw
    refine ⟨y, hy, ?_, ?_⟩
    · simp only [shapeOf, Prod.ext_iff]
      refine ⟨by omega, by omega, by omega, by omega⟩
    · intro b c i j
      rw [hyEq]
      exact sigmoidLayer_data_mem pre b c i j
  · obtain ⟨z, hz, z1, z2, z3, z4⟩ := snDisc_some inDim q hc h16 w16 hh hw
    refine ⟨z, hz, ?_⟩
    simp only [shapeOf, Prod.ext_iff]
    refine ⟨by omega, by omega, by omega, by omega⟩
  · have hmap : (snDiscForward 6 snDiscBias2 img16).map (fun t => t.data 0 0 0 0) =
        some (2 : ℝ) := by
      norm_num [snDiscForward, conv2d, convOut, leakyReluLayer, mapData, leakyRelu,
        padGet, snDiscBias2, zeroConv, img16, Finset.sum_range_succ, Finset.sum_range_zero]
    rcases hz : snDiscForward 6 snDiscBias2 img16 with _ | z
    · rw [hz] at hmap
      exact absurd hmap (by simp)
    · rw [hz] at hmap
      simp only [Option.map_some', Option.some.injEq] at hmap
      exact ⟨snDiscBias2, img16, z, hz, hmap⟩

/-- Witness for the amended C4: the all-zero discriminator and the
bias-2 spectrally normalized discriminator on all-zero 1×6×16×16 inputs. -/
theorem disc_c4_amended_witness :
    (∃ y, discForward 6 zeroDisc img16 = some y ∧ shapeOf y = (1, 1, 1, 1) ∧
      ∀ b c i j, y.data b c i j ∈ Set.Icc (0 : ℝ) 1) ∧
    (∃ z, snDiscForward 6 snDiscBias2 img16 = some z ∧ shapeOf z = (1, 1, 1, 1)) ∧
    (∃ (q' : SNDiscParams) (x' z' : Tensor), snDiscForward 6 q' x' = some z' ∧
      z'.data 0 0 0 0 = 2) :=
  disc_c4_amended 6 zeroDisc snDiscBias2 img16 rfl (by decide) (by decide)
    (by decide) (by decide)

/-- C5: `DiscriminatorMixed.forward((x1, x2))` returns a pair (o1, o2) where
o1 is exactly the first underlying `Discriminator` applied alone to x1 and
o2 is exactly the second applied alone to x2. -/
theorem disc_mixed_pair (inDim1 inDim2 : ℕ) (p : MixedParams) (x1 x2 o1 o2 : Tensor)
    (h : discMixedForward inDim1 inDim2 p (x1, x2) = some (o1, o2)) :
    discForward inDim1 p.D1 x1 = some o1 ∧ discForward inDim2 p.D2 x2 = some o2 := by
  have h' : (Option.bind (discForward inDim1 p.D1 x1) fun a =>
      Option.bind (discForward inDim2 p.D2 x2) fun b => some (a, b)) = some (o1, o2) := h
  cases h1 : discForward inDim1 p.D1 x1 with
  | none =>
    rw [h1] at h'
    simp at h'
  | some a =>
    cases h2 : discForward inDim2 p.D2 x2 with
    | none =>
      rw [h1, h2] at h'
      simp at h'
    | some b =>
      rw [h1, h2] at h'
      simp only [Option.some_bind, Option.some.injEq, Prod.mk.injEq] at h'
      exact ⟨h'.1 ▸ rfl, h'.2 ▸ rfl⟩

/-- Witness for C5: the all-zero mixed discriminator on a pair of all-zero
1×6×16×16 inputs. -/
theorem disc_mixed_pair_witness :
    discForward 6 zeroMixed.D1 img16 = some discZeroOut ∧
    discForward 6 zeroMixed.D2 img16 = some discZeroOut :=
  disc_mixed_pair 6 6 zeroMixed img16 img16 discZeroOut discZeroOut rfl

/-- C6: for every input tensor of channel count C with C divisible by 4 (and
non-empty spatial extent), `Residual.forward` returns an output tensor whose
shape equals the input's shape exactly; the same holds for the four-unit
`ResNet` tower. -/
theorem residual_resnet_shape (C : ℕ) (pr : ResidualParams) (pn : ResNetParams)
    (x : Tensor) (hc : x.c = C) (h4 : 4 ∣ C) (hh : 0 < x.h) (hw : 0 < x.w) :
    (∃ y, residualForward C pr x = some y ∧ shapeOf y = shapeOf x) ∧
    (∃ z, resNetForward C pn x = some z ∧ shapeOf z = shapeOf x) := by
  obtain ⟨y, hy, y1, y2, y3, y4⟩ := residual_some C pr hc hh hw
  obtain ⟨z, hz, z1, z2, z3, z4⟩ := resNet_some C pn hc hh hw
  constructor
  · refine ⟨y, hy, ?_⟩
    simp only [shapeOf, Prod.ext_iff]
    refine ⟨by omega, by omega, by omega, by omega⟩
  · refine ⟨z, hz, ?_⟩
    simp only [shapeOf, Prod.ext_iff]
    refine ⟨by omega, by omega, by omega, by omega⟩

/-- Witness for C6: the all-zero residual unit and tower on an all-zero
1×4×1×1 input. -/
theorem residual_resnet_shape_witness :
    (∃ y, residualForward 4 zeroResidual img4c = some y ∧ shapeOf y = shapeOf img4c) ∧
    (∃ z, resNetForward 4 zeroResNet img4c = some z ∧ shapeOf z = shapeOf img4c) :=
  residual_resnet_shape 4 zeroResidual zeroResNet img4c rfl (by decide)
    (by decide) (by decide)

/-- Counterexample to C7 as stated: with concrete parameters (constant -1
first and second convolutions, identity third convolution and batch norm) on
an all-zero 1×4×1×1 input, the source computation — which also applies a
leaky rectification between the second and third convolutions — differs from
the claimed computation, which rectifies only between the first two. -/
theorem residual_c7_counterexample :
    residualForward 4 resParamsC7 img4c ≠ residualClaimC7 4 resParamsC7 img4c := by
  have hL : (residualForward 4 resParamsC7 img4c).map (fun t => t.data 0 0 0 0) =
      some (-(1 / 10000) : ℝ) := by
    norm_num [residualForward, residualConv, conv2d, convOut, batchNorm2d, addT,
      leakyReluLayer, mapData, leakyRelu, padGet, resParamsC7, img4c, idBN,
      Finset.sum_range_succ, Finset.sum_range_zero]
  have hR : (residualClaimC7 4 resParamsC7 img4c).map (fun t => t.data 0 0 0 0) =
      some (-(1 / 100) : ℝ) := by
    norm_num [residualClaimC7, conv2d, convOut, batchNorm2d, addT,
      leakyReluLayer, mapData, leakyRelu, padGet, resParamsC7, img4c, idBN,
      Finset.sum_range_succ, Finset.sum_range_zero]
  intro hEq
  rw [hEq, hR] at hL
  have : (-(1 / 100) : ℝ) = -(1 / 10000) := by
    exact Option.some.inj hL
  norm_num at this

/-- C7 (amended): inside `Residual.forward` the computation is a 1×1
convolution to C/4, a 3×3 convolution at C/4 and a 1×1 convolution back to C,
with a leaky rectification after each of the first two convolutions (so
between the first and second, and between the second and third) and none
after the third; the result is added to the original input, then the sum is
normalized and leaky-rectified. -/
theorem residual_c7_amended (inDim : ℕ) (p : ResidualParams) (x : Tensor) :
    residualForward inDim p x = residualAmendedC7 inDim p x := by
  unfold residualForward residualAmendedC7 residualConv
  simp only [Option.bind_eq_bind', Option.pure_def, optionBindAssoc, optionMapBindComm,
    optionBindSomeMap, optionMapBind]

/-- Counterexample to C8 as stated: on a 6×32×32 input the source
`Discriminator` (whose fifth convolution has stride 1) produces a 2×2 map,
while the claimed five-stage stride-2 stack would produce a 1×1 map, so the
two architectures disagree. -/
theorem disc_c8_counterexample :
    (discForward 6 zeroDisc img32).map shapeOf = some (1, 1, 2, 2) ∧
      (discClaimC8 6 zeroDiscC8 img32).map shapeOf = some (1, 1, 1, 1) := by
  refine ⟨by rfl, by rfl⟩

/-- C8 (amended): `Discriminator` is a 5-stage convolutional stack with
channel schedule 64→128→256→512→1 in which the first four stages have
stride 2 and the fifth has stride 1, every stage applies batch
normalization, leaky rectification follows each of the first four stages,
and the final stage is sigmoid-activated to a single-channel map. -/
theorem disc_c8_amended (inDim : ℕ) (p : DiscParams) (x : Tensor) :
    discForward inDim p x = discAmendedC8 inDim p x := by
  unfold discForward discAmendedC8
  simp only [Option.bind_eq_bind', Option.pure_def, optionBindAssoc, optionMapBindComm,
    optionBindSomeMap, optionMapBind]

/-- C9: for every valid style/source input (3 channels, spatial extents
divisible by 8 and positive), `BackgroundInpaintingNet.forward` returns,
besides the 3-channel tanh-activated background, a list of exactly three
decoder feature maps of channel widths (256, 128, 64) in that order, and any
`FusionNet` consumes that list without a channel mismatch on a stylized-text
input of the matching shape. -/
theorem bin_fusion_skip_widths (p : BINParams) (x : Tensor)
    (hc : x.c = 3) (h8 : 8 ∣ x.h) (w8 : 8 ∣ x.w) (hh : 0 < x.h) (hw : 0 < x.w) :
    ∃ oB s1 s2 s3, binForward 3 p x = some (oB, [s1, s2, s3]) ∧
      (∃ bPre, oB = tanhLayer bPre ∧ oB.c = 3) ∧
      s1.c = 256 ∧ s2.c = 128 ∧ s3.c = 64 ∧
      ∀ (q : FusionParams) (ot : Tensor),
        ot.n = x.n → ot.c = 3 → ot.h = x.h → ot.w = x.w →
          ∃ oF, fusionForward 3 q ot [s1, s2, s3] = some oF := by
  obtain ⟨bPre, oB, s1, s2, s3, hbin, hBEq, b1, b2, b3, b4,
    s11, s12, s13, s14, s21, s22, s23, s24, s31, s32, s33, s34⟩ :=
    bin_some 3 p hc h8 w8 hh hw
  refine ⟨oB, s1, s2, s3, hbin, ⟨bPre, hBEq, b2⟩, s12, s22, s32, ?_⟩
  intro q ot hn hc2 hh2 hw2
  obtain ⟨fPre, oF, hf, _, _, _, _, _⟩ := fusion_some 3 q (x := ot) hc2
    (by omega) (by omega) (by omega) (by omega)
    ⟨by omega, s12, by omega, by omega⟩
    ⟨by omega, s22, by omega, by omega⟩
    ⟨by omega, s32, by omega, by omega⟩
  exact ⟨oF, hf⟩

/-- Witness for C9: the all-zero background inpainting net on an all-zero
1×3×8×8 input. -/
theorem bin_fusion_skip_widths_witness :
    ∃ oB s1 s2 s3, binForward 3 zeroBIN img8 = some (oB, [s1, s2, s3]) ∧
      (∃ bPre, oB = tanhLayer bPre ∧ oB.c = 3) ∧
      s1.c = 256 ∧ s2.c = 128 ∧ s3.c = 64 ∧
      ∀ (q : FusionParams) (ot : Tensor),
        ot.n = img8.n → ot.c = 3 → ot.h = img8.h → ot.w = img8.w →
          ∃ oF, fusionForward 3 q ot [s1, s2, s3] = some oF :=
  bin_fusion_skip_widths zeroBIN img8 rfl (by decide) (by decide)
    (by decide) (by decide)

/-- C10: for every decoder instance and input, `DecoderNet.forward(x, fuse)`
with `fuse = None`, with `fuse = [None, None, None]` and with `fuse = []`
produce the same result: all three are equivalent absence encodings, since
skip concatenation happens only when the list is truthy and the stage's
entry is not `None`. -/
theorem decoder_fuse_absence (inDim f1c f2c f3c : ℕ) (p : DecoderParams) (x : Tensor) :
    decoderForward inDim f1c f2c f3c p x (some [none, none, none]) =
      decoderForward inDim f1c f2c f3c p x none ∧
    decoderForward inDim f1c f2c f3c p x (some []) =
      decoderForward inDim f1c f2c f3c p x none := by
  constructor
  · rfl
  · rfl
